import Mathlib

/-!
Verification of the listing validation & normalization layer of the
kisanmarkaz marketplace client.

The embedding follows the TypeScript sources:
* `src/schemas/listing.ts`   — enum registries and the zod `listingSchema`;
* `src/lib/typeGuards.ts`    — the seven membership type guards;
* the `EditListing` page (two variants: `src/pages/EditListing.tsx` and the
  unnamed sibling file) — the normalization (form-reset) effect, the enum
  repair helpers `validatePriceUnit` … `validateStatus`, the image-list
  handlers and the submit path.

JavaScript runtime values that may reach a type guard are modelled by
`JSValue`; finite JS numbers in plain decimal notation are modelled by
`DecNum` (mantissa and decimal scale), with `Number.prototype.toString`
and `parseFloat` given as concrete functions over strings.
-/

namespace KisanMarkaz

/-- A JavaScript runtime value as it can reach the type guards: a string,
a finite number (mantissa `m` and decimal scale `s`, denoting `m / 10^s`),
a boolean, `null`, `undefined`, or some other (object-like) value. -/
inductive JSValue where
  | str (s : String)
  | numv (m : Int) (s : Nat)
  | boolv (b : Bool)
  | nullv
  | undefinedv
  | objv
  deriving DecidableEq, Repr

/-- `typeof value === 'string'`. -/
def JSValue.isStringTy : JSValue → Bool
  | .str _ => true
  | _ => false

/-- The string payload of a string value (only used under `isStringTy`). -/
def JSValue.asString : JSValue → String
  | .str s => s
  | _ => ""

/-! ### Enum registries (`src/schemas/listing.ts`)

Each registry is the ordered list of `Object.values` of the corresponding
`as const` object, in insertion order. -/

def YesNoEnum.yes : String := "yes"
def YesNoEnum.no : String := "no"
def YesNoEnum.values : List String := ["yes", "no"]

def ConditionEnum.new : String := "new"
def ConditionEnum.values : List String := ["new", "excellent", "good", "fair", "poor"]

def CertificationEnum.none : String := ""
def CertificationEnum.values : List String := ["", "organic", "gap", "other"]

def PaymentTermsEnum.none : String := ""
def PaymentTermsEnum.values : List String := ["", "advance", "partial", "delivery", "credit"]

def ListingStatusEnum.active : String := "active"
def ListingStatusEnum.values : List String := ["active", "sold", "expired", "draft"]

def PriceUnitEnum.total : String := "total"
def PriceUnitEnum.values : List String := ["total", "per_kg", "per_piece"]

def QuantityUnitEnum.kg : String := "kg"
def QuantityUnitEnum.values : List String := ["kg", "piece", "ton", "quintal"]

/-! ### Type guards (`src/lib/typeGuards.ts`)

Each guard is `typeof value === 'string' && Object.values(E).includes(value)`. -/

def isYesNo (v : JSValue) : Bool :=
  v.isStringTy && YesNoEnum.values.contains v.asString

def isCertification (v : JSValue) : Bool :=
  v.isStringTy && CertificationEnum.values.contains v.asString

def isCondition (v : JSValue) : Bool :=
  v.isStringTy && ConditionEnum.values.contains v.asString

def isPaymentTerms (v : JSValue) : Bool :=
  v.isStringTy && PaymentTermsEnum.values.contains v.asString

def isListingStatus (v : JSValue) : Bool :=
  v.isStringTy && ListingStatusEnum.values.contains v.asString

def isPriceUnit (v : JSValue) : Bool :=
  v.isStringTy && PriceUnitEnum.values.contains v.asString

def isQuantityUnit (v : JSValue) : Bool :=
  v.isStringTy && QuantityUnitEnum.values.contains v.asString

/-! ### Enum repair helpers (unnamed `EditListing` file, lines 85–111)

`const validateX = (value: unknown): X => isX(value) ? value : XEnum.default`. -/

def validatePriceUnit (v : JSValue) : String :=
  if isPriceUnit v then v.asString else PriceUnitEnum.total

def validateQuantityUnit (v : JSValue) : String :=
  if isQuantityUnit v then v.asString else QuantityUnitEnum.kg

def validateYesNo (v : JSValue) : String :=
  if isYesNo v then v.asString else YesNoEnum.no

def validateCondition (v : JSValue) : String :=
  if isCondition v then v.asString else ConditionEnum.new

def validateCertification (v : JSValue) : String :=
  if isCertification v then v.asString else CertificationEnum.none

def validatePaymentTerms (v : JSValue) : String :=
  if isPaymentTerms v then v.asString else PaymentTermsEnum.none

def validateStatus (v : JSValue) : String :=
  if isListingStatus v then v.asString else ListingStatusEnum.active

/-! ### Finite JS numbers and their string codec

`DecNum` models a finite JavaScript number whose `toString` output is in
plain decimal notation: mantissa `m` and decimal scale `s`, denoting the
value `m / 10^s` (every IEEE-754 double rendered without an exponent is of
this shape). `decNumToString` renders the value the way
`Number.prototype.toString` renders such a number — optional `-` sign,
integer digits, and, when `s > 0`, a `.` followed by exactly `s` fraction
digits. `parseFloat` is ECMAScript `parseFloat` on decimal notation:
optional whitespace, optional sign, digits, optional `.` and fraction
digits, optional exponent part; `NaN` when no digit was read (the
`Infinity` literal is outside the modelled fragment). -/

/-- The result of `parseFloat`: `NaN` or a finite value. -/
inductive JNum where
  | nan
  | num (q : ℚ)
  deriving DecidableEq, Repr

/-- A finite JS number `m / 10^s` in plain decimal notation. -/
structure DecNum where
  m : Int
  s : Nat
  deriving DecidableEq, Repr

/-- The rational value of a `DecNum`. -/
def DecNum.val (n : DecNum) : ℚ := (n.m : ℚ) / 10 ^ n.s

/-- The character for a decimal digit `d < 10`. -/
def digitCh (d : Nat) : Char :=
  match d with
  | 0 => '0' | 1 => '1' | 2 => '2' | 3 => '3' | 4 => '4'
  | 5 => '5' | 6 => '6' | 7 => '7' | 8 => '8' | _ => '9'

/-- Big-endian base-10 digits of a natural number (`[]` for `0`). -/
def natDigitsBE (n : Nat) : List Nat := (Nat.digits 10 n).reverse

/-- Digits of the integer part: `0` renders as the single digit `0`. -/
def intPartDigits (n : Nat) : List Nat :=
  if n = 0 then [0] else natDigitsBE n

/-- Digits of the fraction part, left-padded with zeros to width `s`. -/
def fracPartDigits (f s : Nat) : List Nat :=
  List.replicate (s - (Nat.digits 10 f).length) 0 ++ natDigitsBE f

/-- The character list `Number.prototype.toString` produces for `m / 10^s`. -/
def decNumChars (n : DecNum) : List Char :=
  let a := n.m.natAbs
  (if n.m < 0 then ['-'] else []) ++
    (intPartDigits (a / 10 ^ n.s)).map digitCh ++
    (if n.s = 0 then [] else
      '.' :: (fracPartDigits (a % 10 ^ n.s) n.s).map digitCh)

/-- `Number.prototype.toString` for a finite plain-decimal number. -/
def decNumToString (n : DecNum) : String := String.mk (decNumChars n)

/-- `'0' ≤ c ≤ '9'`. -/
def isDigitCh (c : Char) : Bool := '0' ≤ c && c ≤ '9'

/-- The digit value of a digit character. -/
def chDigit (c : Char) : Nat := c.toNat - 48

/-- JS `StrWhiteSpaceChar` (the fragment relevant here). -/
def isWhiteCh (c : Char) : Bool := c = ' ' || c = '\t' || c = '\n' || c = '\r'

/-- Read a maximal run of decimal digits from the front of the input. -/
def takeDigits : List Char → List Nat × List Char
  | [] => ([], [])
  | c :: cs =>
    if isDigitCh c then
      let p := takeDigits cs
      (chDigit c :: p.1, p.2)
    else ([], c :: cs)

/-- Numeric value of a big-endian digit list. -/
def digitsVal (ds : List Nat) : Nat := ds.foldl (fun a d => 10 * a + d) 0

/-- Read an optional sign; `true` means negative. -/
def readSign : List Char → Bool × List Char
  | [] => (false, [])
  | c :: r =>
    if c = '-' then (true, r)
    else if c = '+' then (false, r)
    else (false, c :: r)

/-- Value of an exponent part after `e`/`E`: ignored (0) when no digit follows. -/
def readExpTail (cs : List Char) : Int :=
  let sg := readSign cs
  let ds := takeDigits sg.2
  if ds.1 = [] then 0
  else if sg.1 then -(digitsVal ds.1 : Int) else (digitsVal ds.1 : Int)

/-- Read an optional exponent part. -/
def readExp : List Char → Int
  | [] => 0
  | c :: r => if c = 'e' ∨ c = 'E' then readExpTail r else 0

/-- Read the optional `.`-prefixed fraction digits. -/
def splitFrac : List Char → List Nat × List Char
  | [] => ([], [])
  | c :: r => if c = '.' then takeDigits r else ([], c :: r)

/-- `StrUnsignedDecimalLiteral`: digits, an optional `.` with fraction
digits, an optional exponent part; `Option.none` when no digit was read. -/
def parseUnsigned (cs : List Char) : Option ℚ :=
  let ipr := takeDigits cs
  let fpr := splitFrac ipr.2
  if ipr.1 = [] ∧ fpr.1 = [] then Option.none
  else
    some (((digitsVal ipr.1 : ℚ) + (digitsVal fpr.1 : ℚ) / 10 ^ fpr.1.length) *
      (10 : ℚ) ^ readExp fpr.2)

/-- ECMAScript `parseFloat` on a character list (decimal fragment). -/
def parseFloatChars (cs : List Char) : JNum :=
  let sg := readSign (cs.dropWhile isWhiteCh)
  match parseUnsigned sg.2 with
  | Option.none => JNum.nan
  | some v => JNum.num (if sg.1 then -v else v)

/-- ECMAScript `parseFloat` on a string. -/
def parseFloat (s : String) : JNum := parseFloatChars s.data

/-! ### Remote record and the normalization (form-reset) effect

The remote `ListingWithDetails` row, as it can actually arrive from the
backend: the declared `string`/`number` fields may be `null`/absent
(modelled by `Option`), and the enum fields are arbitrary runtime values. -/

/-- JS `x || ''` on a string that may be `null`/`undefined`. -/
def orEmpty : Option String → String
  | Option.none => ""
  | some s => if s = "" then "" else s

/-- The fetched remote listing row (`ListingWithDetails`). -/
structure RemoteListing where
  title : Option String
  description : Option String
  price : Option DecNum
  quantity : Option DecNum
  price_unit : JSValue
  quantity_unit : JSValue
  category_id : String
  location_city : Option String
  location_state : Option String
  location_country : Option String
  organic : JSValue
  condition : JSValue
  certification : JSValue
  payment_terms : JSValue
  status : JSValue
  images : Option (List String)

/-- The form draft of the unnamed `EditListing` file (`ListingFormData`). -/
structure ListingFormData where
  title : String
  description : String
  price : String
  price_unit : String
  quantity : String
  quantity_unit : String
  category_id : String
  location_city : String
  location_state : String
  location_country : String
  organic : String
  condition : String
  certification : String
  payment_terms : String
  status : String
  deriving DecidableEq, Repr

/-- The component state the reset effect produces: the form draft plus the
`images` state list. -/
structure DraftState where
  form : ListingFormData
  images : List String
  deriving DecidableEq, Repr

/-- The normalization layer: the reset effect of the unnamed `EditListing`
file (lines 158–182) applied to a fetched listing, together with the
`setImages(listing.images)` branch (the `images` state starts as `[]` and
is only overwritten when `listing.images` is truthy). -/
def resetFromListing (l : RemoteListing) : DraftState :=
  { form :=
      { title := orEmpty l.title
        description := orEmpty l.description
        price := orEmpty (l.price.map decNumToString)
        price_unit := validatePriceUnit l.price_unit
        quantity := orEmpty (l.quantity.map decNumToString)
        quantity_unit := validateQuantityUnit l.quantity_unit
        category_id := l.category_id
        location_city := orEmpty l.location_city
        location_state := orEmpty l.location_state
        location_country := orEmpty l.location_country
        organic := validateYesNo l.organic
        condition := validateCondition l.condition
        certification := validateCertification l.certification
        payment_terms := validatePaymentTerms l.payment_terms
        status := validateStatus l.status }
    images :=
      match l.images with
      | some imgs => imgs
      | Option.none => [] }

/-! ### The zod `listingSchema` (`src/schemas/listing.ts`, lines 51–74)

A candidate is a record of raw form values; fields a given form variant
does not register arrive as `Option.none` (zod then applies `.default` /
`.optional()`). Validation returns the list of per-field errors in schema
field order. -/

/-- A per-field validation error. -/
structure FieldError where
  field : String
  message : String
  deriving DecidableEq, Repr

/-- A candidate record submitted to `listingSchema`. -/
structure ListingCandidate where
  title : String
  description : String
  price : String
  price_unit : Option JSValue
  category_id : String
  location_city : String
  location_province : Option String
  location_address : Option String
  quantity : String
  quantity_unit : Option JSValue
  harvest_date : Option String
  organic : Option JSValue
  certification : Option JSValue
  negotiable : Option JSValue
  condition : Option JSValue
  contact_name : Option String
  contact_phone : Option String
  contact_email : Option String
  delivery_available : Option JSValue
  min_order_quantity : Option String
  payment_terms : Option JSValue
  status : Option JSValue

/-- `z.string().min(1, msg)`: error iff the string has length `< 1`. -/
def requiredCheck (fieldName msg s : String) : List FieldError :=
  if 1 ≤ s.length then [] else [⟨fieldName, msg⟩]

/-- `z.nativeEnum(E).default(d)`: an absent value takes the default without
error; a present value errors unless it is a string in the registry. -/
def enumCheck (fieldName : String) (vals : List String) (o : Option JSValue) :
    List FieldError :=
  match o with
  | Option.none => []
  | some v =>
    if v.isStringTy && vals.contains v.asString then []
    else [⟨fieldName, "Invalid enum value"⟩]

/-- Modelled from the spec: the email format check lives inside the zod
library, which is not part of this repository's sources; the spec says the
optional email field, "if non-empty, must match a standard email address
grammar". We model that grammar as: exactly one `@`, a nonempty local
part, and a domain that is nonempty, contains a dot, and neither starts
nor ends with a dot. -/
def isEmailLike (s : String) : Bool :=
  match s.splitOn "@" with
  | [lp, dom] =>
    !lp.isEmpty && !dom.isEmpty && dom.contains '.' &&
      !dom.startsWith "." && !dom.endsWith "."
  | _ => false

/-- `z.string().email(msg).optional().or(z.literal(''))`: absent or empty
is valid; otherwise the email grammar must match. -/
def emailCheck (o : Option String) : List FieldError :=
  match o with
  | Option.none => []
  | some s =>
    if s = "" then []
    else if isEmailLike s then []
    else [⟨"contact_email", "Invalid email address"⟩]

/-- `listingSchema.safeParse`: the list of field errors, in schema order.
Fields with no constraint (`.optional()` plain strings) contribute none. -/
def listingValidate (c : ListingCandidate) : List FieldError :=
  requiredCheck "title" "Title is required" c.title ++
    requiredCheck "description" "Description is required" c.description ++
    requiredCheck "price" "Price is required" c.price ++
    enumCheck "price_unit" PriceUnitEnum.values c.price_unit ++
    requiredCheck "category_id" "Category is required" c.category_id ++
    requiredCheck "location_city" "City is required" c.location_city ++
    requiredCheck "quantity" "Quantity is required" c.quantity ++
    enumCheck "quantity_unit" QuantityUnitEnum.values c.quantity_unit ++
    enumCheck "organic" YesNoEnum.values c.organic ++
    enumCheck "certification" CertificationEnum.values c.certification ++
    enumCheck "negotiable" YesNoEnum.values c.negotiable ++
    enumCheck "condition" ConditionEnum.values c.condition ++
    emailCheck c.contact_email ++
    enumCheck "delivery_available" YesNoEnum.values c.delivery_available ++
    enumCheck "payment_terms" PaymentTermsEnum.values c.payment_terms ++
    enumCheck "status" ListingStatusEnum.values c.status

/-! ### Submission (denormalization) paths

Two variants exist: `src/pages/EditListing.tsx` builds an explicit
`listingData` payload (`parseFloat` on price and quantity, empty optional
strings back to `null`, enum `status` passed through); the unnamed file
spreads the validated form data unchanged (`{...data, updated_at, images}`),
so every enum field passes through as-is. -/

/-- The form draft of `src/pages/EditListing.tsx` (`ListingFormData` there);
optional text fields default to the empty string. -/
structure TsxFormData where
  title : String
  description : String
  price : String
  quantity : String
  category_id : String
  location_city : String
  location_province : String
  location_address : String
  contact_name : String
  contact_phone : String
  contact_email : String
  status : String
  images : List String
  deriving DecidableEq, Repr

/-- JS `s || null` on a string: empty becomes `null`. -/
def orNull (s : String) : Option String :=
  if s = "" then Option.none else some s

/-- The update payload `listingData` built by `onSubmit` in
`src/pages/EditListing.tsx` (lines 290–304). -/
structure TsxUpdatePayload where
  title : String
  description : String
  price : JNum
  quantity : JNum
  category_id : String
  location_city : String
  location_province : String
  location_address : Option String
  contact_name : Option String
  contact_phone : Option String
  contact_email : Option String
  status : String
  images : List String
  deriving DecidableEq, Repr

/-- `listingData` from the submitted form values. -/
def tsxListingData (d : TsxFormData) : TsxUpdatePayload :=
  { title := d.title
    description := d.description
    price := parseFloat d.price
    quantity := parseFloat d.quantity
    category_id := d.category_id
    location_city := d.location_city
    location_province := d.location_province
    location_address := orNull d.location_address
    contact_name := orNull d.contact_name
    contact_phone := orNull d.contact_phone
    contact_email := orNull d.contact_email
    status := d.status
    images := d.images }

/-- The candidate `zodResolver(listingSchema)` sees for the tsx form:
fields the form does not register are absent. -/
def tsxCandidate (d : TsxFormData) : ListingCandidate :=
  { title := d.title
    description := d.description
    price := d.price
    price_unit := Option.none
    category_id := d.category_id
    location_city := d.location_city
    location_province := some d.location_province
    location_address := some d.location_address
    quantity := d.quantity
    quantity_unit := Option.none
    harvest_date := Option.none
    organic := Option.none
    certification := Option.none
    negotiable := Option.none
    condition := Option.none
    contact_name := some d.contact_name
    contact_phone := some d.contact_phone
    contact_email := some d.contact_email
    delivery_available := Option.none
    min_order_quantity := Option.none
    payment_terms := Option.none
    status := some (JSValue.str d.status) }

/-- The outcome of one submit attempt in `src/pages/EditListing.tsx`:
`handleSubmit` runs the zod resolver first; `onSubmit` then bails out when
the listing is missing, and otherwise issues the remote update call. -/
inductive SubmitResult where
  | invalid (errs : List FieldError)
  | noListing
  | remoteCall (payload : TsxUpdatePayload)
  deriving DecidableEq, Repr

/-- One submit attempt of `src/pages/EditListing.tsx` (`onSubmit`, lines
277–327, behind `form.handleSubmit`). -/
def tsxSubmitAttempt (listingPresent : Bool) (d : TsxFormData) : SubmitResult :=
  let errs := listingValidate (tsxCandidate d)
  if errs.isEmpty then
    if listingPresent then SubmitResult.remoteCall (tsxListingData d)
    else SubmitResult.noListing
  else SubmitResult.invalid errs

/-- Whether a submit attempt reached the remote update call. -/
def SubmitResult.callsRemote : SubmitResult → Bool
  | .remoteCall _ => true
  | _ => false

/-- The price field of the payload a submit attempt sent, when it sent one. -/
def SubmitResult.sentPrice : SubmitResult → Option JNum
  | .remoteCall p => some p.price
  | _ => Option.none

/-- The candidate `zodResolver(listingSchema)` sees for the unnamed file's
form (its `ListingFormData` registers all seven enum fields; the schema
ignores the unknown `location_state`/`location_country` keys and the form
registers no contact or province fields). -/
def p0Candidate (d : ListingFormData) : ListingCandidate :=
  { title := d.title
    description := d.description
    price := d.price
    price_unit := some (JSValue.str d.price_unit)
    category_id := d.category_id
    location_city := d.location_city
    location_province := Option.none
    location_address := Option.none
    quantity := d.quantity
    quantity_unit := some (JSValue.str d.quantity_unit)
    harvest_date := Option.none
    organic := some (JSValue.str d.organic)
    certification := some (JSValue.str d.certification)
    negotiable := Option.none
    condition := some (JSValue.str d.condition)
    contact_name := Option.none
    contact_phone := Option.none
    contact_email := Option.none
    delivery_available := Option.none
    min_order_quantity := Option.none
    payment_terms := some (JSValue.str d.payment_terms)
    status := some (JSValue.str d.status) }

/-- The update payload of the unnamed file's `onSubmit` (lines 219–246):
`{...data, images}` — the validated form data spread unchanged (the
`updated_at` timestamp is outside the modelled state). -/
structure P0UpdatePayload where
  form : ListingFormData
  images : List String
  deriving DecidableEq, Repr

/-- The unnamed file's `onSubmit` payload construction. -/
def p0ListingData (d : DraftState) : P0UpdatePayload :=
  { form := d.form, images := d.images }

/-! ### Image list handlers

`handleImageUpload` / `handleImageDelete` in both `EditListing` variants.
The external collaborators are modelled by their observable results: a
successful upload yields `some url`, a failed one `Option.none` (the catch
branch leaves the list unchanged); a delete either succeeds or throws. -/

/-- Metadata of a selected file. -/
structure FileMeta where
  ftype : String
  fsize : Nat
  deriving DecidableEq, Repr

def MAX_FILE_SIZE : Nat := 5 * 1024 * 1024

def ACCEPTED_IMAGE_TYPES : List String :=
  ["image/jpeg", "image/jpg", "image/png", "image/webp"]

/-- Result of one upload handler run: whether the upload collaborator was
invoked, and the resulting image list. -/
structure UploadStepResult where
  uploadInvoked : Bool
  images : List String
  deriving DecidableEq, Repr

/-- `handleImageUpload` of `src/pages/EditListing.tsx` (lines 221–260):
type and size are checked before the upload collaborator is invoked; no
capacity check appears in the handler — the component instead renders the
file input only while fewer than 5 images are present (line 423). -/
def tsxHandleImageUpload (images : List String) (f : FileMeta)
    (uploadResult : Option String) : UploadStepResult :=
  if !ACCEPTED_IMAGE_TYPES.contains f.ftype then ⟨false, images⟩
  else if !(f.fsize ≤ MAX_FILE_SIZE) then ⟨false, images⟩
  else
    match uploadResult with
    | some url => ⟨true, images ++ [url]⟩
    | Option.none => ⟨true, images⟩

/-- The render guard of the Add-Photo input in `src/pages/EditListing.tsx`
(line 423): it exists only while the list has fewer than 5 entries. -/
def tsxUploadRendered (images : List String) : Bool := images.length < 5

/-- `handleImageUpload` of the unnamed `EditListing` file (lines 184–203):
the handler neither checks a capacity limit nor is its `ImageUpload`
button ever hidden, so the upload collaborator is always invoked. -/
def p0HandleImageUpload (images : List String)
    (uploadResult : Option String) : UploadStepResult :=
  match uploadResult with
  | some url => ⟨true, images ++ [url]⟩
  | Option.none => ⟨true, images⟩

/-- `handleImageDelete` (both variants, identical logic): on a successful
remote delete the URL is filtered out of the list; a failed delete leaves
the list unchanged. -/
def handleImageDelete (images : List String) (url : String)
    (deleteOk : Bool) : List String :=
  if deleteOk then images.filter (fun img => img != url) else images

/-! ### Image-list state machine of `src/pages/EditListing.tsx`

Sequential (atomic) component events: selecting a file — possible only
while the Add-Photo input is rendered — and clicking a delete button. -/

/-- One sequential image-list event of the tsx component. -/
inductive TsxImageStep : List String → List String → Prop where
  | upload (images : List String) (f : FileMeta) (uploadResult : Option String)
      (hr : tsxUploadRendered images = true) :
      TsxImageStep images (tsxHandleImageUpload images f uploadResult).images
  | delete (images : List String) (url : String) (deleteOk : Bool) :
      TsxImageStep images (handleImageDelete images url deleteOk)

/-- Image lists reachable from `init` by sequential tsx image events. -/
inductive TsxImagesReachable (init : List String) : List String → Prop where
  | refl : TsxImagesReachable init init
  | step {s s' : List String} : TsxImagesReachable init s → TsxImageStep s s' →
      TsxImagesReachable init s'

/-! ### Submission controllers as state machines

`src/pages/EditListing.tsx`: the submit button carries
`disabled={isSubmitting}` and `onSubmit` wraps the remote call in
`setIsSubmitting(true) … finally setIsSubmitting(false)`. The unnamed
file's submit button carries only `disabled={isUploading}` and its
`onSubmit` sets no submission flag at all. `inFlight` counts pending
remote update writes. -/

/-- Submission-controller state of `src/pages/EditListing.tsx`. -/
structure TsxSubmitState where
  isSubmitting : Bool
  inFlight : Nat
  deriving DecidableEq, Repr

/-- Events of the tsx submission controller, for a fixed form draft `d`
with the listing loaded: a click on the (enabled) submit button either
fails validation or starts the remote write; a pending write eventually
settles and the `finally` clause clears the flag. -/
inductive TsxSubmitStep (d : TsxFormData) : TsxSubmitState → TsxSubmitState → Prop where
  | clickValid (s : TsxSubmitState) (p : TsxUpdatePayload)
      (henabled : s.isSubmitting = false)
      (hv : tsxSubmitAttempt true d = SubmitResult.remoteCall p) :
      TsxSubmitStep d s ⟨true, s.inFlight + 1⟩
  | clickInvalid (s : TsxSubmitState) (errs : List FieldError)
      (henabled : s.isSubmitting = false)
      (hv : tsxSubmitAttempt true d = SubmitResult.invalid errs) :
      TsxSubmitStep d s s
  | settle (s : TsxSubmitState) (hpending : 0 < s.inFlight) :
      TsxSubmitStep d s ⟨false, s.inFlight - 1⟩

/-- Controller states reachable from the idle initial state. -/
inductive TsxSubmitReachable (d : TsxFormData) : TsxSubmitState → Prop where
  | init : TsxSubmitReachable d ⟨false, 0⟩
  | step {s s' : TsxSubmitState} : TsxSubmitReachable d s → TsxSubmitStep d s s' →
      TsxSubmitReachable d s'

/-- Submission-controller state of the unnamed `EditListing` file: the
only flag its submit button reads is `isUploading`. -/
structure P0SubmitState where
  isUploading : Bool
  inFlight : Nat
  deriving DecidableEq, Repr

/-- Events of the unnamed file's submission controller for a fixed draft
`d` (listing and user loaded): a click on the submit button — enabled
whenever no image upload is running — starts a remote write when the zod
check passes; a pending write eventually settles. -/
inductive P0SubmitStep (d : ListingFormData) : P0SubmitState → P0SubmitState → Prop where
  | clickValid (s : P0SubmitState)
      (henabled : s.isUploading = false)
      (hv : (listingValidate (p0Candidate d)).isEmpty = true) :
      P0SubmitStep d s ⟨s.isUploading, s.inFlight + 1⟩
  | settle (s : P0SubmitState) (hpending : 0 < s.inFlight) :
      P0SubmitStep d s ⟨s.isUploading, s.inFlight - 1⟩

/-- Controller states of the unnamed file reachable from the idle state. -/
inductive P0SubmitReachable (d : ListingFormData) : P0SubmitState → Prop where
  | init : P0SubmitReachable d ⟨false, 0⟩
  | step {s s' : P0SubmitState} : P0SubmitReachable d s → P0SubmitStep d s s' →
      P0SubmitReachable d s'

/-! ### Observation helpers and concrete test data -/

/-- Whether the error list reports some error for the named field. -/
def hasFieldError (errs : List FieldError) (f : String) : Bool :=
  errs.any (fun e => e.field == f)

/-- Whether a present enum value would be rejected by `z.nativeEnum`. -/
def enumBad (vals : List String) (o : Option JSValue) : Bool :=
  match o with
  | Option.none => false
  | some v => !(v.isStringTy && vals.contains v.asString)

/-- A remote record with only valid, fully populated fields. -/
def sampleRemote : RemoteListing :=
  { title := some "Wheat"
    description := some "Fresh wheat"
    price := some ⟨125, 1⟩
    quantity := some ⟨3, 0⟩
    price_unit := JSValue.str "total"
    quantity_unit := JSValue.str "kg"
    category_id := "c1"
    location_city := some "Lahore"
    location_state := some "Punjab"
    location_country := some "PK"
    organic := JSValue.str "no"
    condition := JSValue.str "new"
    certification := JSValue.str "organic"
    payment_terms := JSValue.str "advance"
    status := JSValue.str "sold"
    images := some ["u1"] }

/-- The spec's scenario record: unknown status, null price, null images. -/
def soldOutRemote : RemoteListing :=
  { title := some "Wheat"
    description := some "Fresh wheat"
    price := Option.none
    quantity := Option.none
    price_unit := JSValue.str "total"
    quantity_unit := JSValue.str "kg"
    category_id := "c1"
    location_city := some "Lahore"
    location_state := Option.none
    location_country := Option.none
    organic := JSValue.str "no"
    condition := JSValue.str "new"
    certification := JSValue.str ""
    payment_terms := JSValue.str ""
    status := JSValue.str "SOLD_OUT"
    images := Option.none }

/-- A tsx form draft whose price text does not parse to a number. -/
def abcDraft : TsxFormData :=
  { title := "Wheat"
    description := "Fresh wheat"
    price := "abc"
    quantity := "3"
    category_id := "c1"
    location_city := "Lahore"
    location_province := "Punjab"
    location_address := ""
    contact_name := ""
    contact_phone := ""
    contact_email := ""
    status := "active"
    images := [] }

/-- A fully valid tsx form draft. -/
def validTsxDraft : TsxFormData :=
  { title := "Wheat"
    description := "Fresh wheat"
    price := "12.5"
    quantity := "3"
    category_id := "c1"
    location_city := "Lahore"
    location_province := "Punjab"
    location_address := ""
    contact_name := ""
    contact_phone := ""
    contact_email := ""
    status := "active"
    images := [] }

/-- A fully valid draft for the unnamed file's form. -/
def validP0Draft : ListingFormData :=
  { title := "Wheat"
    description := "Fresh wheat"
    price := "12.5"
    price_unit := "total"
    quantity := "3"
    quantity_unit := "kg"
    category_id := "c1"
    location_city := "Lahore"
    location_state := "Punjab"
    location_country := "PK"
    organic := "no"
    condition := "new"
    certification := ""
    payment_terms := ""
    status := "active" }

/-- A candidate whose required text fields are whitespace-only. -/
def wsCandidate : ListingCandidate :=
  { title := " "
    description := " "
    price := "1"
    price_unit := Option.none
    category_id := " "
    location_city := " "
    location_province := Option.none
    location_address := Option.none
    quantity := "1"
    quantity_unit := Option.none
    harvest_date := Option.none
    organic := Option.none
    certification := Option.none
    negotiable := Option.none
    condition := Option.none
    contact_name := Option.none
    contact_phone := Option.none
    contact_email := Option.none
    delivery_available := Option.none
    min_order_quantity := Option.none
    payment_terms := Option.none
    status := Option.none }

/-- An image list already at the configured maximum of 5. -/
def fiveImages : List String := ["u1", "u2", "u3", "u4", "u5"]

/-! ## Theorems -/

/-! ### Guard and validator lemmas -/

theorem guardIf_mem {vals : List String} {dflt : String} (hd : dflt ∈ vals) (v : JSValue) :
    (if v.isStringTy && vals.contains v.asString then v.asString else dflt) ∈ vals := by
  by_cases h : (v.isStringTy && vals.contains v.asString) = true
  · rw [if_pos h]
    rw [Bool.and_eq_true] at h
    exact List.elem_iff.mp h.2
  · rw [if_neg h]
    exact hd

theorem guardIf_id {vals : List String} {dflt s : String} (hs : s ∈ vals) :
    (if (JSValue.str s).isStringTy && vals.contains (JSValue.str s).asString then
      (JSValue.str s).asString else dflt) = s := by
  have hb : ((JSValue.str s).isStringTy && vals.contains (JSValue.str s).asString) = true := by
    simp only [JSValue.isStringTy, JSValue.asString, Bool.true_and]
    exact List.elem_iff.mpr hs
  rw [if_pos hb]
  rfl

theorem guard_iff (vals : List String) (v : JSValue) :
    (v.isStringTy && vals.contains v.asString) = true ↔
      ∃ s, v = JSValue.str s ∧ s ∈ vals := by
  cases v <;>
    simp [JSValue.isStringTy, JSValue.asString, List.elem_iff]

theorem validateStatus_mem (v : JSValue) : validateStatus v ∈ ListingStatusEnum.values :=
  guardIf_mem (by decide) v

theorem validateCondition_mem (v : JSValue) : validateCondition v ∈ ConditionEnum.values :=
  guardIf_mem (by decide) v

theorem validateCertification_mem (v : JSValue) :
    validateCertification v ∈ CertificationEnum.values :=
  guardIf_mem (by decide) v

theorem validatePaymentTerms_mem (v : JSValue) :
    validatePaymentTerms v ∈ PaymentTermsEnum.values :=
  guardIf_mem (by decide) v

theorem validatePriceUnit_mem (v : JSValue) : validatePriceUnit v ∈ PriceUnitEnum.values :=
  guardIf_mem (by decide) v

theorem validateQuantityUnit_mem (v : JSValue) :
    validateQuantityUnit v ∈ QuantityUnitEnum.values :=
  guardIf_mem (by decide) v

theorem validateYesNo_mem (v : JSValue) : validateYesNo v ∈ YesNoEnum.values :=
  guardIf_mem (by decide) v

theorem validateStatus_id {s : String} (hs : s ∈ ListingStatusEnum.values) :
    validateStatus (JSValue.str s) = s :=
  guardIf_id hs

theorem validateCondition_id {s : String} (hs : s ∈ ConditionEnum.values) :
    validateCondition (JSValue.str s) = s :=
  guardIf_id hs

theorem validateCertification_id {s : String} (hs : s ∈ CertificationEnum.values) :
    validateCertification (JSValue.str s) = s :=
  guardIf_id hs

theorem validatePaymentTerms_id {s : String} (hs : s ∈ PaymentTermsEnum.values) :
    validatePaymentTerms (JSValue.str s) = s :=
  guardIf_id hs

theorem validatePriceUnit_id {s : String} (hs : s ∈ PriceUnitEnum.values) :
    validatePriceUnit (JSValue.str s) = s :=
  guardIf_id hs

theorem validateQuantityUnit_id {s : String} (hs : s ∈ QuantityUnitEnum.values) :
    validateQuantityUnit (JSValue.str s) = s :=
  guardIf_id hs

theorem validateYesNo_id {s : String} (hs : s ∈ YesNoEnum.values) :
    validateYesNo (JSValue.str s) = s :=
  guardIf_id hs

/-- C1: every one of the seven enum normalization helpers is total and
silently repairs its input — on any runtime value it yields a member of
the corresponding registry, equal to the input string when the type guard
accepts the value and to the registry's designated default otherwise, so
the Draft's enum fields are always valid registry members. -/
theorem c1_validators_total_and_silent_repair (v : JSValue) :
    (validateStatus v ∈ ListingStatusEnum.values ∧
      validateStatus v = (if isListingStatus v then v.asString else ListingStatusEnum.active)) ∧
    (validateCondition v ∈ ConditionEnum.values ∧
      validateCondition v = (if isCondition v then v.asString else ConditionEnum.new)) ∧
    (validateCertification v ∈ CertificationEnum.values ∧
      validateCertification v =
        (if isCertification v then v.asString else CertificationEnum.none)) ∧
    (validatePaymentTerms v ∈ PaymentTermsEnum.values ∧
      validatePaymentTerms v =
        (if isPaymentTerms v then v.asString else PaymentTermsEnum.none)) ∧
    (validatePriceUnit v ∈ PriceUnitEnum.values ∧
      validatePriceUnit v = (if isPriceUnit v then v.asString else PriceUnitEnum.total)) ∧
    (validateQuantityUnit v ∈ QuantityUnitEnum.values ∧
      validateQuantityUnit v =
        (if isQuantityUnit v then v.asString else QuantityUnitEnum.kg)) ∧
    (validateYesNo v ∈ YesNoEnum.values ∧
      validateYesNo v = (if isYesNo v then v.asString else YesNoEnum.no)) :=
  ⟨⟨validateStatus_mem v, rfl⟩, ⟨validateCondition_mem v, rfl⟩,
    ⟨validateCertification_mem v, rfl⟩, ⟨validatePaymentTerms_mem v, rfl⟩,
    ⟨validatePriceUnit_mem v, rfl⟩, ⟨validateQuantityUnit_mem v, rfl⟩,
    ⟨validateYesNo_mem v, rfl⟩⟩

/-- C2: each of the seven type guards holds exactly on the string values in
the corresponding enum registry — it accepts every registry member, and
rejects every string outside the registry as well as every non-string
runtime value. -/
theorem c2_type_guards_characterize_membership (v : JSValue) :
    (isYesNo v = true ↔ ∃ s, v = JSValue.str s ∧ s ∈ YesNoEnum.values) ∧
    (isCondition v = true ↔ ∃ s, v = JSValue.str s ∧ s ∈ ConditionEnum.values) ∧
    (isCertification v = true ↔ ∃ s, v = JSValue.str s ∧ s ∈ CertificationEnum.values) ∧
    (isPaymentTerms v = true ↔ ∃ s, v = JSValue.str s ∧ s ∈ PaymentTermsEnum.values) ∧
    (isListingStatus v = true ↔ ∃ s, v = JSValue.str s ∧ s ∈ ListingStatusEnum.values) ∧
    (isPriceUnit v = true ↔ ∃ s, v = JSValue.str s ∧ s ∈ PriceUnitEnum.values) ∧
    (isQuantityUnit v = true ↔ ∃ s, v = JSValue.str s ∧ s ∈ QuantityUnitEnum.values) :=
  ⟨guard_iff _ v, guard_iff _ v, guard_iff _ v, guard_iff _ v, guard_iff _ v,
    guard_iff _ v, guard_iff _ v⟩

/-- C10: every enum normalization helper is the identity on registry
members and idempotent on arbitrary inputs; the empty string is a registry
member of Certification and PaymentTerms and is preserved by their
helpers. -/
theorem c10_validators_identity_and_idempotent :
    (∀ s ∈ ListingStatusEnum.values, validateStatus (JSValue.str s) = s) ∧
    (∀ s ∈ ConditionEnum.values, validateCondition (JSValue.str s) = s) ∧
    (∀ s ∈ CertificationEnum.values, validateCertification (JSValue.str s) = s) ∧
    (∀ s ∈ PaymentTermsEnum.values, validatePaymentTerms (JSValue.str s) = s) ∧
    (∀ s ∈ PriceUnitEnum.values, validatePriceUnit (JSValue.str s) = s) ∧
    (∀ s ∈ QuantityUnitEnum.values, validateQuantityUnit (JSValue.str s) = s) ∧
    (∀ s ∈ YesNoEnum.values, validateYesNo (JSValue.str s) = s) ∧
    (∀ v, validateStatus (JSValue.str (validateStatus v)) = validateStatus v) ∧
    (∀ v, validateCondition (JSValue.str (validateCondition v)) = validateCondition v) ∧
    (∀ v, validateCertification (JSValue.str (validateCertification v)) =
      validateCertification v) ∧
    (∀ v, validatePaymentTerms (JSValue.str (validatePaymentTerms v)) =
      validatePaymentTerms v) ∧
    (∀ v, validatePriceUnit (JSValue.str (validatePriceUnit v)) = validatePriceUnit v) ∧
    (∀ v, validateQuantityUnit (JSValue.str (validateQuantityUnit v)) =
      validateQuantityUnit v) ∧
    (∀ v, validateYesNo (JSValue.str (validateYesNo v)) = validateYesNo v) ∧
    CertificationEnum.none ∈ CertificationEnum.values ∧
    PaymentTermsEnum.none ∈ PaymentTermsEnum.values ∧
    validateCertification (JSValue.str "") = "" ∧
    validatePaymentTerms (JSValue.str "") = "" :=
  ⟨fun _ hs => validateStatus_id hs, fun _ hs => validateCondition_id hs,
    fun _ hs => validateCertification_id hs, fun _ hs => validatePaymentTerms_id hs,
    fun _ hs => validatePriceUnit_id hs, fun _ hs => validateQuantityUnit_id hs,
    fun _ hs => validateYesNo_id hs,
    fun v => validateStatus_id (validateStatus_mem v),
    fun v => validateCondition_id (validateCondition_mem v),
    fun v => validateCertification_id (validateCertification_mem v),
    fun v => validatePaymentTerms_id (validatePaymentTerms_mem v),
    fun v => validatePriceUnit_id (validatePriceUnit_mem v),
    fun v => validateQuantityUnit_id (validateQuantityUnit_mem v),
    fun v => validateYesNo_id (validateYesNo_mem v),
    by decide, by decide, by decide, by decide⟩

/-- Witness for C10 at concrete inputs: identity on the members `"sold"`,
`"fair"`, `"gap"`, `"credit"`, `"per_kg"`, `"ton"`, `"yes"`, and
idempotence at the non-string input `null`. -/
theorem c10_witness :
    validateStatus (JSValue.str "sold") = "sold" ∧
    validateCondition (JSValue.str "fair") = "fair" ∧
    validateCertification (JSValue.str "gap") = "gap" ∧
    validatePaymentTerms (JSValue.str "credit") = "credit" ∧
    validatePriceUnit (JSValue.str "per_kg") = "per_kg" ∧
    validateQuantityUnit (JSValue.str "ton") = "ton" ∧
    validateYesNo (JSValue.str "yes") = "yes" ∧
    validateStatus (JSValue.str (validateStatus JSValue.nullv)) =
      validateStatus JSValue.nullv := by
  obtain ⟨h1, h2, h3, h4, h5, h6, h7, h8, -⟩ := c10_validators_identity_and_idempotent
  exact ⟨h1 "sold" (by decide), h2 "fair" (by decide), h3 "gap" (by decide),
    h4 "credit" (by decide), h5 "per_kg" (by decide), h6 "ton" (by decide),
    h7 "yes" (by decide), h8 JSValue.nullv⟩

/-! ### Image-list lemmas -/

theorem filter_bne_eq_self {l : List String} {u : String} (h : u ∉ l) :
    l.filter (fun x => x != u) = l := by
  apply List.filter_eq_self.mpr
  intro a ha
  rw [bne_iff_ne]
  exact fun e => h (e ▸ ha)

theorem filter_bne_eq_erase {l : List String} {u : String} (h : l.count u ≤ 1) :
    l.filter (fun x => x != u) = l.erase u := by
  induction l with
  | nil => rfl
  | cons a t ih =>
    by_cases hau : a = u
    · subst hau
      have h0 : t.count a = 0 := by
        rw [List.count_cons] at h
        simp at h
        omega
      have hnm : a ∉ t := by
        rw [← List.count_eq_zero]
        exact h0
      rw [List.filter_cons, List.erase_cons_head]
      simp only [bne_self_eq_false, Bool.false_eq_true, if_false]
      exact filter_bne_eq_self hnm
    · have hcount : t.count u ≤ 1 := by
        rw [List.count_cons] at h
        omega
      rw [List.filter_cons, if_pos (by rw [bne_iff_ne]; exact hau),
        List.erase_cons_tail (by simp only [beq_iff_eq]; exact hau), ih hcount]

/-- C6: on a successful remote delete, `handleImageDelete` removes the
first (and, when the URL is unique, only) occurrence of the URL while
preserving the order of the remaining entries, and is a no-op when the URL
does not occur in the list. -/
theorem c6_remove_deletes_unique_url (l : List String) (u : String) :
    (u ∈ l → l.count u ≤ 1 → handleImageDelete l u true = l.erase u) ∧
    (u ∉ l → handleImageDelete l u true = l) ∧
    (handleImageDelete l u true).Sublist l := by
  have hd : handleImageDelete l u true = l.filter (fun x => x != u) := rfl
  refine ⟨fun _ hc => ?_, fun hm => ?_, ?_⟩
  · rw [hd]
    exact filter_bne_eq_erase hc
  · rw [hd]
    exact filter_bne_eq_self hm
  · rw [hd]
    exact List.filter_sublist l

/-- Witness for C6: deleting `"u2"` from a three-element list yields the
erase result, and deleting an absent URL is a no-op. -/
theorem c6_witness :
    handleImageDelete ["u1", "u2", "u3"] "u2" true = (["u1", "u2", "u3"].erase "u2") ∧
    handleImageDelete ["u1", "u2", "u3"] "u9" true = ["u1", "u2", "u3"] :=
  ⟨(c6_remove_deletes_unique_url ["u1", "u2", "u3"] "u2").1 (by decide) (by decide),
    (c6_remove_deletes_unique_url ["u1", "u2", "u3"] "u9").2.1 (by decide)⟩

/-! ### Normalization of null and malformed remote fields -/

/-- C8: normalization maps an unknown status string to the status registry
default `"active"`, a null price or quantity to the empty string, and a
null image list to the empty list. -/
theorem c8_null_and_unknown_fields_normalize (l : RemoteListing) :
    (l.status = JSValue.str "SOLD_OUT" → (resetFromListing l).form.status = "active") ∧
    (l.price = Option.none → (resetFromListing l).form.price = "") ∧
    (l.quantity = Option.none → (resetFromListing l).form.quantity = "") ∧
    (l.images = Option.none → (resetFromListing l).images = []) := by
  refine ⟨fun h => ?_, fun h => ?_, fun h => ?_, fun h => ?_⟩
  · show validateStatus l.status = "active"
    rw [h]
    decide
  · show orEmpty (l.price.map decNumToString) = ""
    rw [h]
    rfl
  · show orEmpty (l.quantity.map decNumToString) = ""
    rw [h]
    rfl
  · show (match l.images with | some imgs => imgs | Option.none => []) = []
    rw [h]

/-- Witness for C8: the spec's scenario record
`{status: "SOLD_OUT", price: null, images: null}` normalizes to status
`"active"`, price `""` and an empty image list. -/
theorem c8_witness :
    (resetFromListing soldOutRemote).form.status = "active" ∧
    (resetFromListing soldOutRemote).form.price = "" ∧
    (resetFromListing soldOutRemote).form.quantity = "" ∧
    (resetFromListing soldOutRemote).images = [] := by
  obtain ⟨h1, h2, h3, h4⟩ := c8_null_and_unknown_fields_normalize soldOutRemote
  exact ⟨h1 rfl, h2 rfl, h3 rfl, h4 rfl⟩

/-! ### Image capacity (C5) -/

/-- C5 counterexample: in the unnamed `EditListing` file an upload attempt
with 5 images already present is not rejected — the upload collaborator is
invoked and the list grows to 6 entries. -/
theorem c5_counterexample_upload_at_capacity :
    (p0HandleImageUpload fiveImages (some "u6")).uploadInvoked = true ∧
    (p0HandleImageUpload fiveImages (some "u6")).images =
      ["u1", "u2", "u3", "u4", "u5", "u6"] ∧
    5 < (p0HandleImageUpload fiveImages (some "u6")).images.length := by
  decide

theorem tsxHandleImageUpload_length_le (images : List String) (f : FileMeta)
    (ur : Option String) :
    (tsxHandleImageUpload images f ur).images.length ≤ images.length + 1 := by
  unfold tsxHandleImageUpload
  split
  · show images.length ≤ images.length + 1
    omega
  · split
    · show images.length ≤ images.length + 1
      omega
    · cases ur with
      | none =>
        show images.length ≤ images.length + 1
        omega
      | some url =>
        show (images ++ [url]).length ≤ images.length + 1
        simp

theorem handleImageDelete_length_le (images : List String) (url : String) (ok : Bool) :
    (handleImageDelete images url ok).length ≤ images.length := by
  unfold handleImageDelete
  split
  · exact List.length_filter_le _ _
  · exact le_refl _

/-- C5 amended: in `src/pages/EditListing.tsx` the Add-Photo input is
rendered only while the image list holds fewer than 5 URLs, so under
sequential image events every reachable list stays at length at most 5,
and the input through which uploads are initiated does not exist at
capacity. -/
theorem c5_amended_tsx_capacity (init s : List String) (hinit : init.length ≤ 5)
    (hr : TsxImagesReachable init s) :
    s.length ≤ 5 ∧ ∀ imgs : List String, 5 ≤ imgs.length → tsxUploadRendered imgs = false := by
  constructor
  · induction hr with
    | refl => exact hinit
    | @step s0 s1 h hstep ih =>
      cases hstep with
      | upload f ur hrend =>
        have h5 : s0.length < 5 := by
          simpa [tsxUploadRendered] using hrend
        have hlen := tsxHandleImageUpload_length_le s0 f ur
        omega
      | delete url ok =>
        have hlen := handleImageDelete_length_le s0 url ok
        omega
  · intro imgs himgs
    simp only [tsxUploadRendered, decide_eq_false_iff_not]
    omega

/-- Witness for C5 (amended) at the concrete at-capacity list. -/
theorem c5_amended_witness :
    fiveImages.length ≤ 5 ∧ tsxUploadRendered fiveImages = false := by
  have h := c5_amended_tsx_capacity fiveImages fiveImages (by decide)
    TsxImagesReachable.refl
  exact ⟨h.1, h.2 fiveImages (by decide)⟩

/-! ### Submission serialization (C9) -/

/-- C9 counterexample: in the unnamed `EditListing` file the submit button
is disabled only while an image upload runs, so from the idle state two
submit clicks in a row reach a state with two overlapping in-flight remote
update writes for the same Draft. -/
theorem c9_counterexample_two_overlapping_writes :
    P0SubmitReachable validP0Draft ⟨false, 2⟩ :=
  P0SubmitReachable.step
    (P0SubmitReachable.step P0SubmitReachable.init
      (P0SubmitStep.clickValid ⟨false, 0⟩ rfl (by decide)))
    (P0SubmitStep.clickValid ⟨false, 1⟩ rfl (by decide))

/-- C9 amended: in the `src/pages/EditListing.tsx` controller the submit
button is disabled while `isSubmitting` is set, so every reachable state
has at most one in-flight remote update write, and whenever the button is
enabled no write is pending. -/
theorem c9_amended_tsx_serializes_submissions (d : TsxFormData) (s : TsxSubmitState)
    (hr : TsxSubmitReachable d s) :
    s.inFlight ≤ 1 ∧ (s.isSubmitting = false → s.inFlight = 0) := by
  induction hr with
  | init => exact ⟨Nat.zero_le _, fun _ => rfl⟩
  | @step s0 s1 h hstep ih =>
    cases hstep with
    | clickValid p hen hv =>
      have h0 := ih.2 hen
      constructor
      · show s0.inFlight + 1 ≤ 1
        omega
      · intro hfalse
        simp at hfalse
    | clickInvalid errs hen hv => exact ih
    | settle hp =>
      have h1 := ih.1
      constructor
      · show s0.inFlight - 1 ≤ 1
        omega
      · intro _
        show s0.inFlight - 1 = 0
        omega

/-- Witness for C9 (amended): the state right after one valid submit click
is reachable and satisfies the bound. -/
theorem c9_amended_witness :
    (⟨true, 1⟩ : TsxSubmitState).inFlight ≤ 1 ∧
      ((⟨true, 1⟩ : TsxSubmitState).isSubmitting = false →
        (⟨true, 1⟩ : TsxSubmitState).inFlight = 0) :=
  c9_amended_tsx_serializes_submissions validTsxDraft ⟨true, 1⟩
    (TsxSubmitReachable.step TsxSubmitReachable.init
      (TsxSubmitStep.clickValid ⟨false, 0⟩ (tsxListingData validTsxDraft) rfl rfl))

/-! ### Malformed numeric submission (C4) -/

/-- C4 (code bug): a draft with price text `"abc"` passes the zod schema
(which only requires non-emptiness), `onSubmit` performs no NaN check, and
the remote update call is invoked with price NaN — no malformed-numeric
condition stops the submission. -/
theorem c4_nan_price_reaches_remote :
    (tsxSubmitAttempt true abcDraft).callsRemote = true ∧
    (tsxSubmitAttempt true abcDraft).sentPrice = some JNum.nan := by
  decide

/-! ### Validation schema lemmas (C7) -/

theorem string_length_zero_iff (s : String) : s.length = 0 ↔ s = "" := by
  constructor
  · intro h
    cases s with
    | mk data =>
      have hdata : data = [] := List.length_eq_zero.mp h
      subst hdata
      rfl
  · intro h
    subst h
    rfl

theorem hasFieldError_append (l1 l2 : List FieldError) (f : String) :
    hasFieldError (l1 ++ l2) f = (hasFieldError l1 f || hasFieldError l2 f) := by
  simp [hasFieldError, List.any_append]

theorem hasFieldError_requiredCheck (f m s g : String) :
    hasFieldError (requiredCheck f m s) g = ((f == g) && decide (s.length = 0)) := by
  unfold hasFieldError requiredCheck
  split
  · rename_i h
    have h0 : decide (s.length = 0) = false := by
      simp only [decide_eq_false_iff_not]
      omega
    simp [h0]
  · rename_i h
    have h0 : decide (s.length = 0) = true := by
      simp only [decide_eq_true_eq]
      omega
    simp [h0, List.any]

theorem hasFieldError_enumCheck (f : String) (vals : List String) (o : Option JSValue)
    (g : String) :
    hasFieldError (enumCheck f vals o) g = ((f == g) && enumBad vals o) := by
  cases o with
  | none => simp [hasFieldError, enumCheck, enumBad]
  | some v =>
    simp only [enumCheck, enumBad]
    by_cases h : (v.isStringTy && vals.contains v.asString) = true
    · rw [if_pos h, h]
      simp [hasFieldError]
    · have h' : (v.isStringTy && vals.contains v.asString) = false := by
        revert h
        cases v.isStringTy && vals.contains v.asString <;> simp
      rw [if_neg h, h']
      simp [hasFieldError, List.any]

theorem hasFieldError_emailCheck (o : Option String) (g : String)
    (hg : ("contact_email" == g) = false) :
    hasFieldError (emailCheck o) g = false := by
  unfold emailCheck
  cases o with
  | none => rfl
  | some s =>
    by_cases h1 : s = ""
    · simp [h1, hasFieldError]
    · by_cases h2 : isEmailLike s = true
      · simp [h1, h2, hasFieldError]
      · simp [h1, h2, hasFieldError, hg]

theorem requiredCheck_eq_nil (f m s : String) (h : s ≠ "") : requiredCheck f m s = [] := by
  unfold requiredCheck
  rw [if_pos]
  have : s.length ≠ 0 := fun h0 => h (by
    cases s with
    | mk data =>
      simp only [String.length] at h0
      simp [List.length_eq_zero.mp h0])
  omega

theorem enumCheck_eq_nil (f : String) (vals : List String) (o : Option JSValue)
    (h : enumBad vals o = false) : enumCheck f vals o = [] := by
  cases o with
  | none => rfl
  | some v =>
    simp only [enumBad] at h
    have hv : (v.isStringTy && vals.contains v.asString) = true := by
      revert h
      cases v.isStringTy && vals.contains v.asString <;> simp
    simp only [enumCheck]
    rw [if_pos hv]

theorem emailCheck_eq_nil {o : Option String}
    (h : o = Option.none ∨ o = some "" ∨ ∃ s, o = some s ∧ isEmailLike s = true) :
    emailCheck o = [] := by
  rcases h with h | h | ⟨s, hs, he⟩ <;> subst_vars <;> simp [emailCheck, *]

/-- C7 amended: validation of the required text fields produces a
"required" error exactly when the field's value is the empty string — no
trimming is applied, so whitespace-only values are accepted — and a
candidate with all required fields non-empty, all present enum values
valid, and an absent/empty/valid email is accepted with no errors. -/
theorem c7_amended_required_iff_empty_string (c : ListingCandidate) :
    (hasFieldError (listingValidate c) "title" = true ↔ c.title = "") ∧
    (hasFieldError (listingValidate c) "description" = true ↔ c.description = "") ∧
    (hasFieldError (listingValidate c) "location_city" = true ↔ c.location_city = "") ∧
    (hasFieldError (listingValidate c) "category_id" = true ↔ c.category_id = "") ∧
    (c.title ≠ "" → c.description ≠ "" → c.price ≠ "" → c.category_id ≠ "" →
      c.location_city ≠ "" → c.quantity ≠ "" →
      enumBad PriceUnitEnum.values c.price_unit = false →
      enumBad QuantityUnitEnum.values c.quantity_unit = false →
      enumBad YesNoEnum.values c.organic = false →
      enumBad CertificationEnum.values c.certification = false →
      enumBad YesNoEnum.values c.negotiable = false →
      enumBad ConditionEnum.values c.condition = false →
      enumBad YesNoEnum.values c.delivery_available = false →
      enumBad PaymentTermsEnum.values c.payment_terms = false →
      enumBad ListingStatusEnum.values c.status = false →
      (c.contact_email = Option.none ∨ c.contact_email = some "" ∨
        ∃ s, c.contact_email = some s ∧ isEmailLike s = true) →
      listingValidate c = []) := by
  refine ⟨?_, ?_, ?_, ?_,
    fun ht hd hp hcat hcity hq e1 e2 e3 e4 e5 e6 e7 e8 e9 hmail => ?_⟩
  · simp [listingValidate, hasFieldError_append, hasFieldError_requiredCheck,
      hasFieldError_enumCheck, hasFieldError_emailCheck, string_length_zero_iff]
  · simp [listingValidate, hasFieldError_append, hasFieldError_requiredCheck,
      hasFieldError_enumCheck, hasFieldError_emailCheck, string_length_zero_iff]
  · simp [listingValidate, hasFieldError_append, hasFieldError_requiredCheck,
      hasFieldError_enumCheck, hasFieldError_emailCheck, string_length_zero_iff]
  · simp [listingValidate, hasFieldError_append, hasFieldError_requiredCheck,
      hasFieldError_enumCheck, hasFieldError_emailCheck, string_length_zero_iff]
  · unfold listingValidate
    rw [requiredCheck_eq_nil _ _ _ ht, requiredCheck_eq_nil _ _ _ hd,
      requiredCheck_eq_nil _ _ _ hp, enumCheck_eq_nil _ _ _ e1,
      requiredCheck_eq_nil _ _ _ hcat, requiredCheck_eq_nil _ _ _ hcity,
      requiredCheck_eq_nil _ _ _ hq, enumCheck_eq_nil _ _ _ e2,
      enumCheck_eq_nil _ _ _ e3, enumCheck_eq_nil _ _ _ e4,
      enumCheck_eq_nil _ _ _ e5, enumCheck_eq_nil _ _ _ e6,
      emailCheck_eq_nil hmail, enumCheck_eq_nil _ _ _ e7,
      enumCheck_eq_nil _ _ _ e8, enumCheck_eq_nil _ _ _ e9]
    rfl

/-- C7 counterexample: a candidate whose title, description, city and
category reference are all the whitespace-only string `" "` passes
validation with no errors — `min(1)` counts length without trimming, so
the claim that whitespace-only required fields are rejected is false. -/
theorem c7_counterexample_whitespace_accepted : listingValidate wsCandidate = [] := by
  decide

/-- Witness for C7 (amended): a fully populated candidate (the unnamed
file's valid draft) validates with no errors. -/
theorem c7_witness : listingValidate (p0Candidate validP0Draft) = [] :=
  (c7_amended_required_iff_empty_string (p0Candidate validP0Draft)).2.2.2.2
    (by decide) (by decide) (by decide) (by decide) (by decide) (by decide)
    (by decide) (by decide) (by decide) (by decide) (by decide) (by decide)
    (by decide) (by decide) (by decide) (Or.inl rfl)

/-! ### Round trip of the numeric string codec (C3) -/

theorem digitCh_facts (d : Nat) (hd : d < 10) :
    isDigitCh (digitCh d) = true ∧ chDigit (digitCh d) = d ∧
      isWhiteCh (digitCh d) = false ∧ digitCh d ≠ '-' ∧ digitCh d ≠ '+' := by
  interval_cases d <;> exact ⟨by decide, by decide, by decide, by decide, by decide⟩

theorem takeDigits_map_append (ds : List Nat) (hds : ∀ d ∈ ds, d < 10) (rest : List Char)
    (hrest : ∀ c t, rest = c :: t → isDigitCh c = false) :
    takeDigits (ds.map digitCh ++ rest) = (ds, rest) := by
  induction ds with
  | nil =>
    simp only [List.map_nil, List.nil_append]
    cases rest with
    | nil => rfl
    | cons c t =>
      have hc := hrest c t rfl
      simp [takeDigits, hc]
  | cons d ds ih =>
    have hd : d < 10 := hds d (List.mem_cons_self d ds)
    obtain ⟨h1, h2, -, -, -⟩ := digitCh_facts d hd
    have ih' := ih fun x hx => hds x (List.mem_cons_of_mem d hx)
    simp [takeDigits, h1, h2, ih']

theorem digitsVal_append_singleton (xs : List Nat) (d : Nat) :
    digitsVal (xs ++ [d]) = 10 * digitsVal xs + d := by
  simp [digitsVal, List.foldl_append]

theorem digitsVal_reverse (L : List Nat) : digitsVal L.reverse = Nat.ofDigits 10 L := by
  induction L with
  | nil => rfl
  | cons d L ih =>
    rw [List.reverse_cons, digitsVal_append_singleton, ih, Nat.ofDigits_cons]
    ring

theorem digitsVal_natDigitsBE (n : Nat) : digitsVal (natDigitsBE n) = n := by
  rw [natDigitsBE, digitsVal_reverse, Nat.ofDigits_digits]

theorem digitsVal_replicate_zero (k : Nat) (ds : List Nat) :
    digitsVal (List.replicate k 0 ++ ds) = digitsVal ds := by
  induction k with
  | zero => rfl
  | succ k ih =>
    have hstep : digitsVal (0 :: (List.replicate k 0 ++ ds)) =
        digitsVal (List.replicate k 0 ++ ds) := by
      simp [digitsVal]
    rw [List.replicate_succ, List.cons_append, hstep, ih]

theorem intPartDigits_lt (n : Nat) : ∀ d ∈ intPartDigits n, d < 10 := by
  intro d hd
  rw [intPartDigits] at hd
  split at hd
  · simp at hd
    omega
  · rw [natDigitsBE, List.mem_reverse] at hd
    exact Nat.digits_lt_base (by norm_num) hd

theorem intPartDigits_ne_nil (n : Nat) : intPartDigits n ≠ [] := by
  rw [intPartDigits]
  split
  · simp
  · rename_i h
    rw [natDigitsBE]
    simp [Nat.digits_ne_nil_iff_ne_zero, h]

theorem digitsVal_intPartDigits (n : Nat) : digitsVal (intPartDigits n) = n := by
  rw [intPartDigits]
  split
  · rename_i h
    simp [digitsVal, h]
  · exact digitsVal_natDigitsBE n

theorem fracPartDigits_lt (f s : Nat) : ∀ d ∈ fracPartDigits f s, d < 10 := by
  intro d hd
  rw [fracPartDigits] at hd
  rcases List.mem_append.mp hd with h | h
  · rw [List.eq_of_mem_replicate h]
    omega
  · rw [natDigitsBE, List.mem_reverse] at h
    exact Nat.digits_lt_base (by norm_num) h

theorem digitsVal_fracPartDigits (f s : Nat) : digitsVal (fracPartDigits f s) = f := by
  rw [fracPartDigits, digitsVal_replicate_zero, digitsVal_natDigitsBE]

theorem digits_length_le_of_lt {f s : Nat} (h : f < 10 ^ s) :
    (Nat.digits 10 f).length ≤ s := by
  rcases Nat.eq_zero_or_pos f with rfl | hf
  · simp
  · rw [Nat.digits_len 10 f (by norm_num) (by omega)]
    have hlog := Nat.log_lt_of_lt_pow (by omega : f ≠ 0) h
    omega

theorem fracPartDigits_length (f s : Nat) (h : f < 10 ^ s) :
    (fracPartDigits f s).length = s := by
  have hle := digits_length_le_of_lt h
  rw [fracPartDigits]
  simp only [List.length_append, List.length_replicate, natDigitsBE, List.length_reverse]
  omega

theorem dropWhile_white_digits (ds : List Nat) (hds : ∀ d ∈ ds, d < 10) (hne : ds ≠ [])
    (rest : List Char) :
    List.dropWhile isWhiteCh (ds.map digitCh ++ rest) = ds.map digitCh ++ rest := by
  cases ds with
  | nil => exact absurd rfl hne
  | cons d t =>
    obtain ⟨-, -, h3, -, -⟩ := digitCh_facts d (hds d (List.mem_cons_self d t))
    simp [List.dropWhile_cons, h3]

theorem readSign_digits (ds : List Nat) (hds : ∀ d ∈ ds, d < 10) (hne : ds ≠ [])
    (rest : List Char) :
    readSign (ds.map digitCh ++ rest) = (false, ds.map digitCh ++ rest) := by
  cases ds with
  | nil => exact absurd rfl hne
  | cons d t =>
    obtain ⟨-, -, -, h4, h5⟩ := digitCh_facts d (hds d (List.mem_cons_self d t))
    simp [readSign, h4, h5]

theorem nat_div_mod_rat (a k : Nat) (hk : k ≠ 0) :
    ((a / k : ℕ) : ℚ) + ((a % k : ℕ) : ℚ) / (k : ℚ) = (a : ℚ) / (k : ℚ) := by
  have hk' : (k : ℚ) ≠ 0 := Nat.cast_ne_zero.mpr hk
  field_simp
  norm_cast
  rw [Nat.div_add_mod' a k]

theorem splitFrac_dot (r : List Char) : splitFrac ('.' :: r) = takeDigits r := by
  simp [splitFrac]

theorem parseUnsigned_core (a s : Nat) :
    parseUnsigned ((intPartDigits (a / 10 ^ s)).map digitCh ++
      (if s = 0 then [] else '.' :: (fracPartDigits (a % 10 ^ s) s).map digitCh)) =
    some ((a : ℚ) / 10 ^ s) := by
  have hip := intPartDigits_lt (a / 10 ^ s)
  have hipne := intPartDigits_ne_nil (a / 10 ^ s)
  by_cases hs : s = 0
  · subst hs
    rw [if_pos rfl, List.append_nil]
    have htd := takeDigits_map_append (intPartDigits (a / 10 ^ 0)) hip []
      (fun c t h => nomatch h)
    rw [List.append_nil] at htd
    simp only [parseUnsigned, htd]
    rw [if_neg (fun hcon => hipne hcon.1)]
    show some ((((digitsVal (intPartDigits (a / 10 ^ 0)) : ℕ) : ℚ) +
        ((digitsVal ([] : List Nat) : ℕ) : ℚ) / (10 : ℚ) ^ (0 : ℕ)) *
        (10 : ℚ) ^ readExp ([] : List Char)) = some ((a : ℚ) / 10 ^ (0 : ℕ))
    rw [digitsVal_intPartDigits]
    norm_num [digitsVal, readExp]
  · rw [if_neg hs]
    have hmod : a % 10 ^ s < 10 ^ s := Nat.mod_lt _ (by positivity)
    have hfp := fracPartDigits_lt (a % 10 ^ s) s
    have htd1 := takeDigits_map_append (intPartDigits (a / 10 ^ s)) hip
      ('.' :: (fracPartDigits (a % 10 ^ s) s).map digitCh)
      (fun c t h => by cases h; decide)
    have htd2 := takeDigits_map_append (fracPartDigits (a % 10 ^ s) s) hfp []
      (fun c t h => nomatch h)
    rw [List.append_nil] at htd2
    simp only [parseUnsigned, htd1]
    show (if intPartDigits (a / 10 ^ s) = [] ∧
        (splitFrac ('.' :: (fracPartDigits (a % 10 ^ s) s).map digitCh)).1 = [] then
        Option.none
      else
        some ((((digitsVal (intPartDigits (a / 10 ^ s)) : ℕ) : ℚ) +
          ((digitsVal
            (splitFrac ('.' :: (fracPartDigits (a % 10 ^ s) s).map digitCh)).1 : ℕ) : ℚ) /
            (10 : ℚ) ^
              (splitFrac ('.' :: (fracPartDigits (a % 10 ^ s) s).map digitCh)).1.length) *
          (10 : ℚ) ^
            readExp (splitFrac ('.' :: (fracPartDigits (a % 10 ^ s) s).map digitCh)).2)) =
      some ((a : ℚ) / 10 ^ s)
    rw [splitFrac_dot, htd2]
    rw [if_neg (fun hcon => hipne hcon.1)]
    show some ((((digitsVal (intPartDigits (a / 10 ^ s)) : ℕ) : ℚ) +
        ((digitsVal (fracPartDigits (a % 10 ^ s) s) : ℕ) : ℚ) /
          (10 : ℚ) ^ (fracPartDigits (a % 10 ^ s) s).length) *
        (10 : ℚ) ^ readExp ([] : List Char)) = some ((a : ℚ) / 10 ^ s)
    rw [digitsVal_intPartDigits, digitsVal_fracPartDigits, fracPartDigits_length _ _ hmod]
    rw [show readExp ([] : List Char) = 0 from rfl, zpow_zero, mul_one]
    exact congrArg some (by
      have h := nat_div_mod_rat a (10 ^ s) (by positivity)
      push_cast at h ⊢
      linarith [h])

theorem natAbs_cast_of_neg {m : Int} (hm : m < 0) : ((m.natAbs : ℚ)) = -(m : ℚ) := by
  rw [Int.cast_natAbs, Int.cast_abs]
  exact abs_of_nonpos (by exact_mod_cast le_of_lt hm)

theorem natAbs_cast_of_nonneg {m : Int} (hm : 0 ≤ m) : ((m.natAbs : ℚ)) = (m : ℚ) := by
  rw [Int.cast_natAbs, Int.cast_abs]
  exact abs_of_nonneg (by exact_mod_cast hm)

theorem parseFloatChars_of_unsigned (cs : List Char) (v : ℚ)
    (hws : cs.dropWhile isWhiteCh = cs)
    (hsg : readSign cs = (false, cs))
    (hv : parseUnsigned cs = some v) :
    parseFloatChars cs = JNum.num v := by
  simp [parseFloatChars, hws, hsg, hv]

theorem parseFloatChars_neg_of_unsigned (cs : List Char) (v : ℚ)
    (hv : parseUnsigned cs = some v) :
    parseFloatChars ('-' :: cs) = JNum.num (-v) := by
  have hws : ('-' :: cs).dropWhile isWhiteCh = '-' :: cs := by
    rw [List.dropWhile_cons, if_neg (by decide)]
  simp [parseFloatChars, hws, readSign, hv]

/-- Main codec round trip: `parseFloat` recovers the exact value from the
`toString` rendering of any finite plain-decimal number. -/
theorem parseFloat_decNumToString (n : DecNum) :
    parseFloat (decNumToString n) = JNum.num n.val := by
  obtain ⟨m, s⟩ := n
  show parseFloatChars (decNumChars ⟨m, s⟩) = JNum.num ((⟨m, s⟩ : DecNum).val)
  have hip := intPartDigits_lt (m.natAbs / 10 ^ s)
  have hipne := intPartDigits_ne_nil (m.natAbs / 10 ^ s)
  have hcore := parseUnsigned_core m.natAbs s
  by_cases hm : m < 0
  · simp only [decNumChars, if_pos hm, List.cons_append, List.nil_append]
    rw [parseFloatChars_neg_of_unsigned _ _ hcore]
    exact congrArg JNum.num (by
      simp only [DecNum.val]
      rw [natAbs_cast_of_neg hm]
      ring)
  · simp only [decNumChars, if_neg hm, List.nil_append]
    rw [parseFloatChars_of_unsigned _ _ (dropWhile_white_digits _ hip hipne _)
      (readSign_digits _ hip hipne _) hcore]
    exact congrArg JNum.num (by
      simp only [DecNum.val]
      rw [natAbs_cast_of_nonneg (not_lt.mp hm)])

theorem decNumChars_ne_nil (n : DecNum) : decNumChars n ≠ [] := by
  obtain ⟨m, s⟩ := n
  simp only [decNumChars]
  intro h
  have h1 := (List.append_eq_nil.mp h).1
  have h2 := (List.append_eq_nil.mp h1).2
  exact intPartDigits_ne_nil _ (List.map_eq_nil_iff.mp h2)

theorem decNumToString_ne_empty (n : DecNum) : decNumToString n ≠ "" := by
  intro h
  have hdata : decNumChars n = [] := by
    have := congrArg String.data h
    simpa [decNumToString] using this
  exact decNumChars_ne_nil n hdata

theorem orEmpty_decNumToString (o : DecNum) :
    orEmpty (some (decNumToString o)) = decNumToString o := by
  simp [orEmpty, decNumToString_ne_empty o]

/-- C3: for a remote record with finite plain-decimal price and quantity
and already-valid enum fields, denormalizing the normalized Draft —
`parseFloat` on the `toString` text, enum fields passed through the spread
payload — reproduces numerically equal price and quantity and identical
enum values. -/
theorem c3_roundtrip_valid_record (l : RemoteListing) (p q : DecNum)
    (hp : l.price = some p) (hq : l.quantity = some q)
    (hpu : isPriceUnit l.price_unit = true)
    (hqu : isQuantityUnit l.quantity_unit = true)
    (ho : isYesNo l.organic = true)
    (hc : isCondition l.condition = true)
    (hcert : isCertification l.certification = true)
    (hpt : isPaymentTerms l.payment_terms = true)
    (hst : isListingStatus l.status = true) :
    parseFloat ((resetFromListing l).form.price) = JNum.num p.val ∧
    parseFloat ((resetFromListing l).form.quantity) = JNum.num q.val ∧
    (p0ListingData (resetFromListing l)).form.price_unit = l.price_unit.asString ∧
    (p0ListingData (resetFromListing l)).form.quantity_unit = l.quantity_unit.asString ∧
    (p0ListingData (resetFromListing l)).form.organic = l.organic.asString ∧
    (p0ListingData (resetFromListing l)).form.condition = l.condition.asString ∧
    (p0ListingData (resetFromListing l)).form.certification = l.certification.asString ∧
    (p0ListingData (resetFromListing l)).form.payment_terms = l.payment_terms.asString ∧
    (p0ListingData (resetFromListing l)).form.status = l.status.asString := by
  refine ⟨?_, ?_, ?_, ?_, ?_, ?_, ?_, ?_, ?_⟩
  · show parseFloat (orEmpty (l.price.map decNumToString)) = _
    rw [hp]
    show parseFloat (orEmpty (some (decNumToString p))) = _
    rw [orEmpty_decNumToString, parseFloat_decNumToString]
  · show parseFloat (orEmpty (l.quantity.map decNumToString)) = _
    rw [hq]
    show parseFloat (orEmpty (some (decNumToString q))) = _
    rw [orEmpty_decNumToString, parseFloat_decNumToString]
  · show (if isPriceUnit l.price_unit then l.price_unit.asString else PriceUnitEnum.total) = _
    rw [if_pos hpu]
  · show (if isQuantityUnit l.quantity_unit then l.quantity_unit.asString
      else QuantityUnitEnum.kg) = _
    rw [if_pos hqu]
  · show (if isYesNo l.organic then l.organic.asString else YesNoEnum.no) = _
    rw [if_pos ho]
  · show (if isCondition l.condition then l.condition.asString else ConditionEnum.new) = _
    rw [if_pos hc]
  · show (if isCertification l.certification then l.certification.asString
      else CertificationEnum.none) = _
    rw [if_pos hcert]
  · show (if isPaymentTerms l.payment_terms then l.payment_terms.asString
      else PaymentTermsEnum.none) = _
    rw [if_pos hpt]
  · show (if isListingStatus l.status then l.status.asString
      else ListingStatusEnum.active) = _
    rw [if_pos hst]

/-- Witness for C3 at the concrete record with price `12.5`, quantity `3`
and valid enum fields. -/
theorem c3_witness :
    parseFloat ((resetFromListing sampleRemote).form.price) =
      JNum.num ((⟨125, 1⟩ : DecNum).val) ∧
    parseFloat ((resetFromListing sampleRemote).form.quantity) =
      JNum.num ((⟨3, 0⟩ : DecNum).val) ∧
    (p0ListingData (resetFromListing sampleRemote)).form.status =
      (JSValue.str "sold").asString := by
  have h := c3_roundtrip_valid_record sampleRemote ⟨125, 1⟩ ⟨3, 0⟩ rfl rfl (by decide)
    (by decide) (by decide) (by decide) (by decide) (by decide) (by decide)
  exact ⟨h.1, h.2.1, h.2.2.2.2.2.2.2.2⟩

end KisanMarkaz
